import Mathlib

/-!
Verification of the ForexFactory economic-calendar extraction pipeline
(`app/jobs/parsers/forexfactory.py`) and the economics storage upsert
(`app/storage/queries.py`), as a shallow embedding in Lean 4.

Python `datetime.date` values are modelled as `Date` (proleptic Gregorian,
year as a natural number); `date.toordinal` is `Date.toOrdinal`.  lxml
element trees are modelled by the inductive type `Elem`; `text_content`,
`find_class`, `iter(tag)` and the xpath row query are translated below.
CPython `strptime` with the formats used by the source is translated
token-for-token (including its year-1900 day-validity check and the exact
regular expressions of the `%a %b %d`, `%I:%M%p` and `%I:%M %p` directives).
The IANA Europe/Berlin zone used through `zoneinfo` is modelled by the EU
daylight-saving rule in force since 1996 (CEST between the last Sunday of
March, 03:00 local, and the last Sunday of October, 03:00 local), with
PEP 495 fold=0 disambiguation, which is what `datetime.astimezone` uses.
-/

namespace Kitsune

instance {ε α : Type} [DecidableEq ε] [DecidableEq α] : DecidableEq (Except ε α) := fun x y =>
  match x, y with
  | .error a, .error b =>
    if h : a = b then .isTrue (congrArg Except.error h)
    else .isFalse (fun hc => h (by injection hc))
  | .error _, .ok _ => .isFalse (fun hc => by injection hc)
  | .ok _, .error _ => .isFalse (fun hc => by injection hc)
  | .ok a, .ok b =>
    if h : a = b then .isTrue (congrArg Except.ok h)
    else .isFalse (fun hc => h (by injection hc))

/-- Model of Python `datetime.date`: proleptic Gregorian calendar date. -/
structure Date where
  year : Nat
  month : Nat
  day : Nat
  deriving DecidableEq, Repr

/-- Python `calendar.isleap` / the Gregorian leap-year rule. -/
def isLeap (y : Nat) : Bool :=
  y % 4 == 0 && (y % 100 != 0 || y % 400 == 0)

/-- Number of days in month `m` of year `y` (months numbered 1..12). -/
def daysInMonth (y m : Nat) : Nat :=
  if m = 2 then (if isLeap y then 29 else 28)
  else if m = 4 ∨ m = 6 ∨ m = 9 ∨ m = 11 then 30
  else 31

/-- Days strictly before January 1 of year `y` counted from 0001-01-01 (day 1). -/
def daysBeforeYear (y : Nat) : Nat :=
  365 * (y - 1) + (y - 1) / 4 - (y - 1) / 100 + (y - 1) / 400

/-- Days in year `y` strictly before the first of month `m`. -/
def daysBeforeMonth (y m : Nat) : Nat :=
  (List.range (m - 1)).foldl (fun acc i => acc + daysInMonth y (i + 1)) 0

/-- Model of `date.toordinal`: 0001-01-01 is day 1. -/
def Date.toOrdinal (d : Date) : Nat :=
  daysBeforeYear d.year + daysBeforeMonth d.year d.month + d.day

/-- Validity of a `Date` value (what `datetime.date` enforces on construction). -/
def Date.Valid (d : Date) : Prop :=
  1 ≤ d.year ∧ 1 ≤ d.month ∧ d.month ≤ 12 ∧ 1 ≤ d.day ∧ d.day ≤ daysInMonth d.year d.month

instance (d : Date) : Decidable d.Valid := by
  unfold Date.Valid; infer_instance

/-- Calendar predecessor of a valid date (used to express a UTC conversion
that crosses midnight backwards). -/
def Date.pred (d : Date) : Date :=
  if 1 < d.day then ⟨d.year, d.month, d.day - 1⟩
  else if 1 < d.month then ⟨d.year, d.month - 1, daysInMonth d.year (d.month - 1)⟩
  else ⟨d.year - 1, 12, 31⟩

/-- Wall-clock time of day, model of Python `datetime.time` restricted to
minute precision (the parser only ever produces whole minutes). -/
structure Time where
  hour : Nat
  minute : Nat
  deriving DecidableEq, Repr

/-- A UTC instant at minute precision, model of an aware `datetime` in UTC. -/
structure DateTime where
  date : Date
  hour : Nat
  minute : Nat
  deriving DecidableEq, Repr

/-- Minutes elapsed since the epoch 0001-01-01 00:00, for instant arithmetic. -/
def DateTime.toMinutes (dt : DateTime) : Nat :=
  dt.date.toOrdinal * 1440 + dt.hour * 60 + dt.minute

/-! ## lxml element-tree model -/

/-- Model of an lxml HTML element: tag name, attribute list (name, value),
the text directly under the element, and the child elements.  Text tails
between siblings are absorbed into the owner's text; the parser only
inspects whole-subtree text content, so this loses nothing it reads. -/
inductive Elem : Type where
  | mk (tag : String) (attrs : List (String × String)) (text : String)
       (children : List Elem) : Elem

def Elem.tag : Elem → String
  | .mk t _ _ _ => t

def Elem.attrs : Elem → List (String × String)
  | .mk _ a _ _ => a

def Elem.text : Elem → String
  | .mk _ _ s _ => s

def Elem.children : Elem → List Elem
  | .mk _ _ _ cs => cs

/-- Whitespace test used throughout, the ASCII core of both Python's
whitespace class and what occurs in the parsed markup. -/
def wsChar (c : Char) : Bool := c.isWhitespace

/-- Split a character list at every separator character satisfying `p`,
keeping empty pieces (the splitting underlying Python `str.split`). -/
def splitWhen (p : Char → Bool) : List Char → List (List Char)
  | [] => [[]]
  | c :: cs =>
    let r := splitWhen p cs
    if p c then [] :: r
    else
      match r with
      | [] => [[c]]
      | t :: ts => (c :: t) :: ts

/-- Whitespace-delimited tokens, model of Python `str.split()` with no
arguments (empty pieces dropped). -/
def wsTokens (s : String) : List String :=
  ((splitWhen wsChar s.data).filter (fun t => t ≠ [])).map (fun t => String.mk t)

/-- Pieces between occurrences of a separator character, keeping empty
pieces: model of `str.split(sep)` / `String.splitOn` for a one-character
separator. -/
def sepTokens (sep : Char) (s : String) : List String :=
  (splitWhen (fun c => c = sep) s.data).map (fun t => String.mk t)

/-- Model of Python `str.strip()`. -/
def trimChars (cs : List Char) : List Char :=
  ((cs.dropWhile wsChar).reverse.dropWhile wsChar).reverse

/-- Model of Python `str.lower()` on the ASCII text this parser reads. -/
def pyLower (s : String) : String :=
  String.mk (s.data.map Char.toLower)

/-- Tokenized value of the class attribute, model of lxml `.classes`. -/
def Elem.classes (e : Elem) : List String :=
  match e.attrs.lookup "class" with
  | none => []
  | some v => (wsTokens v)

mutual
/-- Model of lxml `text_content()`: concatenated text of the whole subtree. -/
def Elem.textContent : Elem → String
  | .mk _ _ s cs => s ++ textContentList cs

def textContentList : List Elem → String
  | [] => ""
  | c :: cs => c.textContent ++ textContentList cs
end

mutual
/-- All elements of the subtree rooted at `e` in document (preorder) order;
lxml `iter`, `find_class` and descendant xpath queries enumerate this. -/
def Elem.descendants : Elem → List Elem
  | .mk t a s cs => .mk t a s cs :: descendantsList cs

def descendantsList : List Elem → List Elem
  | [] => []
  | c :: cs => c.descendants ++ descendantsList cs
end

/-- Model of lxml `find_class(name)`: descendant-or-self elements carrying
the class, in document order. -/
def Elem.findClass (e : Elem) (name : String) : List Elem :=
  e.descendants.filter (fun d => name ∈ d.classes)

/-- Model of `el.iter(tag)`: descendant-or-self elements with the tag. -/
def Elem.iterTag (e : Elem) (t : String) : List Elem :=
  e.descendants.filter (fun d => d.tag = t)

/-- Model of Python `str.strip` on the text the parser reads. -/
def pyStrip (s : String) : String := String.mk (trimChars s.data)

/-- Model of the source helper `_text`: stripped `text_content`, `none` when
the element is missing or the stripped text is empty. -/
def textOpt : Option Elem → Option String
  | none => none
  | some el =>
    let t := pyStrip el.textContent
    if t = "" then none else some t

/-! ## strptime models

The source calls `datetime.strptime` with the formats `%a %b %d` (dates),
and `%I:%M%p` / `%I:%M %p` (times).  CPython compiles these to regular
expressions: `%a` is an alternation of lowercase weekday abbreviations,
`%b` of month abbreviations, `%d` is `3[01]|[12]\d|0[1-9]|[1-9]`,
`%I` is `1[0-2]|0[1-9]|[1-9]`, `%M` is `[0-5]\d|\d`, `%p` is `am|pm`,
matching case-insensitively; whitespace in the format matches one or more
whitespace characters; the whole input must be consumed; and the resulting
month/day pair is validated against the default year 1900 (so Feb 29 never
parses).  The models below are stated for already-stripped input, which is
the only input the parser ever feeds them (`_text` strips). -/

def weekdayAbbrevs : List String := ["mon", "tue", "wed", "thu", "fri", "sat", "sun"]

def monthAbbrevs : List String :=
  ["jan", "feb", "mar", "apr", "may", "jun", "jul", "aug", "sep", "oct", "nov", "dec"]

/-- Numeric value of a digit list. -/
def digitsToNat (cs : List Char) : Nat :=
  cs.foldl (fun n c => 10 * n + (c.toNat - 48)) 0

/-- Value of a 1-or-2 digit numeral token, `none` otherwise. -/
def digitsVal (s : String) : Option Nat :=
  if s.data.length = 0 ∨ 2 < s.data.length ∨ ¬ s.data.all Char.isDigit then none
  else some (digitsToNat s.data)

/-- Model of `strptime(raw, "%a %b %d")` restricted to stripped input:
returns the (month, day) pair, discarding the weekday. -/
def parseFFDate (raw : String) : Option (Nat × Nat) :=
  match wsTokens (pyLower raw) with
  | [w, mo, d] =>
    if w ∈ weekdayAbbrevs then
      match monthAbbrevs.indexOf? mo, digitsVal d with
      | some mi, some dv =>
        if 1 ≤ dv ∧ dv ≤ daysInMonth 1900 (mi + 1) then some (mi + 1, dv) else none
      | _, _ => none
    else none
  | _ => none

/-- Model of the source `_resolve_date`: parse "Thu Feb 26", anchor to the
current year, and re-anchor by the delta heuristic.  `today` is passed
explicitly (the source reads `date.today()`); the strptime `ValueError` is
the `.error` branch. -/
def resolveDate (raw : String) (today : Date) : Except String Date :=
  match parseFFDate raw with
  | none => .error "time data does not match format"
  | some (m, d) =>
    let candidate : Date := ⟨today.year, m, d⟩
    let delta : Int := (candidate.toOrdinal : Int) - (today.toOrdinal : Int)
    if delta > 90 then .ok ⟨today.year - 1, m, d⟩
    else if delta < -270 then .ok ⟨today.year + 1, m, d⟩
    else .ok candidate

/-- Hour token of `%I`: 1-or-2 digit numeral with value 1..12. -/
def parseHour12 (s : String) : Option Nat :=
  match digitsVal s with
  | none => none
  | some v => if 1 ≤ v ∧ v ≤ 12 then some v else none

/-- The `%p` token: exactly "am" or "pm" (input is already lowercased). -/
def matchAmPm (r : String) : Option String :=
  if r = "am" ∨ r = "pm" then some r else none

/-- One-or-more whitespace characters followed by the `%p` token. -/
def matchSpacesAmPm (r : String) : Option String :=
  let sp := r.data.takeWhile wsChar
  if sp = [] then none else matchAmPm (String.mk (r.data.drop sp.length))

/-- The `%M` token followed by `tail`, with regex backtracking: the
two-digit alternative `[0-5]\d` is tried first, then the one-digit `\d`. -/
def parseMinuteThen (r : String) (tail : String → Option String) : Option (Nat × String) :=
  let cs := r.data
  (if 2 ≤ cs.length ∧ (cs.take 2).all Char.isDigit ∧ digitsToNat (cs.take 2) ≤ 59 then
    (tail (String.mk (cs.drop 2))).map (fun p => (digitsToNat (cs.take 2), p))
   else none)
  <|>
  (if 1 ≤ cs.length ∧ (cs.take 1).all Char.isDigit then
    (tail (String.mk (cs.drop 1))).map (fun p => (digitsToNat (cs.take 1), p))
   else none)

/-- The 12-hour to 24-hour conversion strptime applies for `%I` with `%p`. -/
def ampmAdjust (h : Nat) (p : String) : Nat :=
  if p = "am" then (if h = 12 then 0 else h) else (if h = 12 then 12 else h + 12)

/-- Model of `strptime(s, fmt).time()` for `fmt` one of the two clock
formats; `sep` selects `"%I:%M %p"` (true) over `"%I:%M%p"` (false). -/
def parseClockFmt (sep : Bool) (s : String) : Option Time :=
  match sepTokens ':' s with
  | [hs, rest] =>
    match parseHour12 hs, parseMinuteThen rest (if sep then matchSpacesAmPm else matchAmPm) with
    | some h, some (m, p) => some ⟨ampmAdjust h p, m⟩
    | _, _ => none
  | _ => none

/-- Both clock formats, in the order the source tries them. -/
def parseClock (s : String) : Option Time :=
  (parseClockFmt false s) <|> (parseClockFmt true s)

/-- Model of the source `_parse_time`: `None` input, empty input, sentinel
labels and anything else that fails both formats all yield `none`. -/
def parseTimeOpt (raw : Option String) : Option Time :=
  match raw with
  | none => none
  | some s => if s = "" then none else parseClock (pyLower (pyStrip s))

/-! ## Europe/Berlin timezone model -/

/-- Day of month of the last Sunday of a 31-day month `m` of year `y`
(ordinal 1, 0001-01-01, is a Monday, so Sundays have ordinal ≡ 0 mod 7). -/
def lastSunday (y m : Nat) : Nat :=
  31 - (Date.toOrdinal ⟨y, m, 31⟩ % 7)

/-- Whether Europe/Berlin is on daylight-saving time at local wall-clock
`(d, t)`, per the EU rule in force since 1996: CEST from the last Sunday of
March 03:00 local to the last Sunday of October 03:00 local.  On the spring
transition day the skipped hour 02:xx takes the pre-gap offset, and on the
autumn day the repeated hour 02:xx takes the pre-transition (CEST) offset:
both are what `zoneinfo` reports for a fold=0 naive datetime. -/
def berlinIsDst (d : Date) (t : Time) : Bool :=
  if d.month < 3 ∨ 10 < d.month then false
  else if 3 < d.month ∧ d.month < 10 then true
  else if d.month = 3 then
    let ls := lastSunday d.year 3
    if d.day < ls then false
    else if d.day = ls then decide (3 ≤ t.hour)
    else true
  else
    let ls := lastSunday d.year 10
    if d.day < ls then true
    else if d.day = ls then decide (t.hour < 3)
    else false

/-- The UTC offset, in minutes, that `datetime.combine(d, t, tzinfo=CET)`
carries (CET is `ZoneInfo("Europe/Berlin")` in the source). -/
def berlinOffsetMinutes (d : Date) (t : Time) : Nat :=
  if berlinIsDst d t then 120 else 60

/-- Model of `datetime.combine(d, t, tzinfo=_CET).astimezone(timezone.utc)`:
subtract the offset from the wall clock, borrowing a day when the
subtraction crosses midnight backwards. -/
def cetToUtc (d : Date) (t : Time) : DateTime :=
  let off := berlinOffsetMinutes d t
  let localMin := t.hour * 60 + t.minute
  if off ≤ localMin then ⟨d, (localMin - off) / 60, (localMin - off) % 60⟩
  else ⟨d.pred, (localMin + 1440 - off) / 60, (localMin + 1440 - off) % 60⟩

/-- Model of `datetime.combine(d, time.min, tzinfo=timezone.utc)`. -/
def midnightUtc (d : Date) : DateTime := ⟨d, 0, 0⟩

/-- The instant-building step of `parse_economic_calendar` (source lines
128-138): given the carried date and raw time string, produce the event
instant and the all-day flag. -/
def resolveInstant (currentDate : Option Date) (currentTime : Option String) :
    Option DateTime × Bool :=
  match currentDate with
  | none => (none, false)
  | some d =>
    match parseTimeOpt currentTime with
    | none => (some (midnightUtc d), true)
    | some t => (some (cetToUtc d t), false)

/-! ## Impact classifier -/

/-- The source `_IMPACT_MAP`. -/
def impactMap : List (String × String) :=
  [("red", "High"), ("ora", "Medium"), ("yel", "Low"), ("gra", "Non-Economic")]

/-- Model of `cls.rsplit("-", 1)[-1]`: the part after the last hyphen. -/
def impactSuffix (cls : String) : String :=
  (sepTokens '-' cls).getLastD ""

/-- Model of `cls.startswith(pre)`. -/
def strStarts (pre s : String) : Bool :=
  pre.data.isPrefixOf s.data

/-- All classes of the descendant `<span>` elements of the impact cell, in
the order the nested loops of `_impact_label` visit them. -/
def impactClasses (td : Elem) : List String :=
  ((td.iterTag "span").map Elem.classes).flatten

/-- The class at which the nested loops of `_impact_label` return. -/
def firstImpactClass (td : Elem) : Option String :=
  (impactClasses td).find? (fun c => strStarts "icon--ff-impact-" c)

/-- Model of `_impact_label`: scan the classes of the descendant `<span>`
elements in document order; the first class carrying the icon marker
decides the result via `_IMPACT_MAP.get`, even when the suffix is unknown. -/
def impactLabel (td : Elem) : Option String :=
  match firstImpactClass td with
  | none => none
  | some c => impactMap.lookup (impactSuffix c)

/-! ## Row scan -/

/-- One emitted row of `parse_economic_calendar`, the dict of source lines
140-151 (field order follows the dict). -/
structure Event where
  date : Option DateTime
  is_all_day : Bool
  currency : Option String
  impact : Option String
  event : Option String
  actual : Option String
  forecast : Option String
  previous : Option String
  deriving DecidableEq, Repr

/-- The per-row field extraction and dict construction of source lines
110-151, given the carried state after this row's date/time cells. -/
def buildEvent (row : Elem) (currentDate : Option Date) (currentTime : Option String) : Event :=
  let currency := textOpt (row.findClass "calendar__currency").head?
  let impact := match (row.findClass "calendar__impact").head? with
    | none => none
    | some td => impactLabel td
  let eventName := textOpt (row.findClass "calendar__event-title").head?
  let actual := textOpt (row.findClass "calendar__actual").head?
  let forecast := textOpt (row.findClass "calendar__forecast").head?
  let previous := textOpt (row.findClass "calendar__previous").head?
  let inst := resolveInstant currentDate currentTime
  ⟨inst.1, inst.2, currency, impact, eventName, actual, forecast, previous⟩

/-- The date-cell step of the scan (source lines 95-101): a present,
non-empty date cell is resolved (a strptime failure propagates), setting
the carried date and resetting the carried time. -/
def dateStep (row : Elem) (today : Date) (cd : Option Date) (ct : Option String) :
    Except String (Option Date × Option String) :=
  match (row.findClass "calendar__date").head? with
  | none => .ok (cd, ct)
  | some td =>
    match textOpt (some td) with
    | none => .ok (cd, ct)
    | some raw =>
      match resolveDate raw today with
      | .error e => .error e
      | .ok d => .ok (some d, none)

/-- The time-cell step of the scan (source lines 103-108). -/
def timeStep (row : Elem) (ct : Option String) : Option String :=
  match (row.findClass "calendar__time").head? with
  | none => ct
  | some td =>
    match textOpt (some td) with
    | none => ct
    | some t => some t

/-- The stateful row loop of `parse_economic_calendar` (source lines
94-151): an uncaught resolver error aborts the whole scan. -/
def scanRows (today : Date) : List Elem → Option Date → Option String → Except String (List Event)
  | [], _, _ => .ok []
  | row :: rest, cd, ct =>
    match dateStep row today cd ct with
    | .error e => .error e
    | .ok (cd2, ct2) =>
      let ct3 := timeStep row ct2
      match scanRows today rest cd2 ct3 with
      | .error e => .error e
      | .ok evs => .ok (buildEvent row cd2 ct3 :: evs)

/-- Model of the xpath query `//tr[@data-event-id]`. -/
def eventRows (doc : Elem) : List Elem :=
  doc.descendants.filter (fun e => e.tag = "tr" && e.attrs.any (fun a => a.1 = "data-event-id"))

/-- Model of `parse_economic_calendar`, with `today` explicit. -/
def parseEconomicCalendar (doc : Elem) (today : Date) : Except String (List Event) :=
  scanRows today (eventRows doc) none none

/-! ## Table extractor -/

def renderAttrs : List (String × String) → String
  | [] => ""
  | (n, v) :: rest => " " ++ n ++ "=" ++ "\"" ++ v ++ "\"" ++ renderAttrs rest

mutual
/-- Serialization of an element subtree, model of `lxml.html.tostring`. -/
def render : Elem → String
  | .mk t a s cs => "<" ++ t ++ renderAttrs a ++ ">" ++ s ++ renderList cs ++ "</" ++ t ++ ">"

def renderList : List Elem → String
  | [] => ""
  | c :: cs => render c ++ renderList cs
end

/-- Model of `extract_calendar_table`: serialize the first element carrying
the `calendar__table` class, or fail with the extraction `ValueError`. -/
def extractCalendarTable (doc : Elem) : Except String String :=
  match doc.findClass "calendar__table" with
  | [] => .error "No calendar table found in HTML"
  | t :: _ => .ok (render t)

/-! ## Economics storage upsert (`write_economics_calendar`)

The `economics_calendar` table is modelled as a list of stored rows in
insertion order (the serial `id` order).  The SQL
`INSERT ... ON CONFLICT (day, event) DO UPDATE SET col = COALESCE(EXCLUDED.col, old.col)`
becomes `upsertEco`: update every row matching the (day, event) key in
place, or append a fresh row when none matches. -/

/-- The non-key columns of one `economics_calendar` row. -/
structure EcoFields where
  time : Option String
  currency : Option String
  impact : Option String
  actual : Option String
  forecast : Option String
  previous : Option String
  deriving DecidableEq, Repr

/-- An incoming event dict as `write_economics_calendar` reads it. -/
structure EcoEvent where
  event : Option String
  fields : EcoFields
  deriving DecidableEq, Repr

/-- One stored `economics_calendar` row. -/
structure StoredRow where
  day : Date
  event : String
  fields : EcoFields
  deriving DecidableEq, Repr

/-- The stored table, in insertion (`id`) order. -/
abbrev Store := List StoredRow

/-- SQL `COALESCE(EXCLUDED.col, existing.col)`. -/
def coalesce (newVal oldVal : Option String) : Option String :=
  match newVal with
  | some v => some v
  | none => oldVal

/-- The `DO UPDATE SET` clause: non-null incoming columns overwrite. -/
def mergeFields (incoming stored : EcoFields) : EcoFields :=
  ⟨coalesce incoming.time stored.time,
   coalesce incoming.currency stored.currency,
   coalesce incoming.impact stored.impact,
   coalesce incoming.actual stored.actual,
   coalesce incoming.forecast stored.forecast,
   coalesce incoming.previous stored.previous⟩

/-- The conflict target `(day, event)`. -/
def keyMatches (day : Date) (name : String) (r : StoredRow) : Bool :=
  r.day == day && r.event == name

/-- One `INSERT ... ON CONFLICT (day, event) DO UPDATE` statement. -/
def upsertEco (day : Date) (name : String) (f : EcoFields) (s : Store) : Store :=
  if s.any (keyMatches day name) then
    s.map (fun r => if keyMatches day name r then ⟨r.day, r.event, mergeFields f r.fields⟩ else r)
  else s ++ [⟨day, name, f⟩]

/-- The per-event body of the write loop: a falsy event name (absent or
empty) skips the row, otherwise upsert. -/
def writeEvent (day : Date) (ev : EcoEvent) (s : Store) : Store :=
  match ev.event with
  | none => s
  | some name => if name = "" then s else upsertEco day name ev.fields s

/-- Model of `write_economics_calendar`: iterate the day-keyed mapping in
order and upsert each event. -/
def writeEconomicsCalendar (data : List (Date × List EcoEvent)) (s : Store) : Store :=
  data.foldl (fun acc p => p.2.foldl (fun a e => writeEvent p.1 e a) acc) s

/-- First stored row matching the key, model of a keyed SELECT. -/
def findRow (day : Date) (name : String) (s : Store) : Option StoredRow :=
  s.find? (keyMatches day name)

/-! ## Lemmas about the upsert -/

theorem coalesce_self (a : Option String) : coalesce a a = a := by
  cases a <;> rfl

theorem coalesce_coalesce (a b : Option String) : coalesce a (coalesce a b) = coalesce a b := by
  cases a <;> rfl

theorem coalesce_some (v : String) (b : Option String) : coalesce (some v) b = some v := rfl

theorem coalesce_none (b : Option String) : coalesce none b = b := rfl

theorem mergeFields_self (f : EcoFields) : mergeFields f f = f := by
  cases f
  simp [mergeFields, coalesce_self]

theorem mergeFields_merge (f g : EcoFields) :
    mergeFields f (mergeFields f g) = mergeFields f g := by
  cases f
  cases g
  simp [mergeFields, coalesce_coalesce]

/-- The update function applied to each row by the conflict branch. -/
def updateRow (day : Date) (name : String) (f : EcoFields) (r : StoredRow) : StoredRow :=
  if keyMatches day name r then ⟨r.day, r.event, mergeFields f r.fields⟩ else r

theorem updateRow_idem (day : Date) (name : String) (f : EcoFields) (r : StoredRow) :
    updateRow day name f (updateRow day name f r) = updateRow day name f r := by
  by_cases h : keyMatches day name r
  · have h2 : keyMatches day name (⟨r.day, r.event, mergeFields f r.fields⟩ : StoredRow) := h
    simp [updateRow, h, h2, mergeFields_merge]
  · simp [updateRow, h]

theorem keyMatches_updateRow (day : Date) (name : String) (f : EcoFields) (r : StoredRow) :
    keyMatches day name (updateRow day name f r) = keyMatches day name r := by
  by_cases h : keyMatches day name r
  · simp only [updateRow, if_pos h]
    rfl
  · simp [updateRow, h]

theorem upsertEco_eq_map (day : Date) (name : String) (f : EcoFields) (s : Store)
    (h : s.any (keyMatches day name)) :
    upsertEco day name f s = s.map (updateRow day name f) := by
  simp [upsertEco, h, updateRow]

theorem upsertEco_eq_append (day : Date) (name : String) (f : EcoFields) (s : Store)
    (h : ¬ s.any (keyMatches day name)) :
    upsertEco day name f s = s ++ [⟨day, name, f⟩] := by
  simp only [upsertEco, updateRow]
  rw [if_neg h]

theorem upsertEco_idem (day : Date) (name : String) (f : EcoFields) (s : Store) :
    upsertEco day name f (upsertEco day name f s) = upsertEco day name f s := by
  by_cases h : s.any (keyMatches day name)
  · rw [upsertEco_eq_map day name f s h]
    have hany : (s.map (updateRow day name f)).any (keyMatches day name) := by
      rw [List.any_map]
      have hfun : (keyMatches day name ∘ updateRow day name f) = keyMatches day name :=
        funext (fun r => keyMatches_updateRow day name f r)
      rw [hfun]
      exact h
    rw [upsertEco_eq_map day name f _ hany, List.map_map]
    apply List.map_congr_left
    intro r _
    exact updateRow_idem day name f r
  · rw [upsertEco_eq_append day name f s h]
    have hnew : keyMatches day name (⟨day, name, f⟩ : StoredRow) := by
      simp [keyMatches]
    have hany : (s ++ [(⟨day, name, f⟩ : StoredRow)]).any (keyMatches day name) := by
      rw [List.any_append]
      simp [hnew]
    rw [upsertEco_eq_map day name f _ hany, List.map_append]
    have hnone : ∀ r ∈ s, ¬ keyMatches day name r := by
      intro r hr
      intro hk
      exact h (List.any_eq_true.mpr ⟨r, hr, hk⟩)
    congr 1
    · rw [show s.map (updateRow day name f) = s.map id from
        List.map_congr_left (fun r hr => by simp [updateRow, hnone r hr])]
      exact List.map_id s
    · simp [updateRow, hnew, mergeFields_self]

theorem find?_map_updateRow (day : Date) (name : String) (f : EcoFields) :
    ∀ (s : Store) (r : StoredRow), s.find? (keyMatches day name) = some r →
      (s.map (updateRow day name f)).find? (keyMatches day name) =
        some ⟨day, name, mergeFields f r.fields⟩
  | [], r, h => by simp at h
  | a :: t, r, h => by
    by_cases ha : keyMatches day name a
    · rw [List.find?_cons_of_pos _ ha] at h
      injection h with h
      subst h
      have hkey : a.day = day ∧ a.event = name := by
        simpa [keyMatches] using ha
      have hmatch : keyMatches day name (updateRow day name f a) := by
        rw [keyMatches_updateRow]; exact ha
      simp only [List.map_cons]
      rw [List.find?_cons_of_pos _ hmatch]
      simp [updateRow, ha, hkey.1, hkey.2]
    · rw [List.find?_cons_of_neg _ ha] at h
      have hu : updateRow day name f a = a := by simp [updateRow, ha]
      simp only [List.map_cons]
      rw [hu, List.find?_cons_of_neg _ ha]
      exact find?_map_updateRow day name f t r h

theorem findRow_upsert_conflict (day : Date) (name : String) (f : EcoFields) (s : Store)
    (r : StoredRow) (h : findRow day name s = some r) :
    findRow day name (upsertEco day name f s) = some ⟨day, name, mergeFields f r.fields⟩ := by
  have hmem := List.mem_of_find?_eq_some h
  have hp := List.find?_some h
  have hany : s.any (keyMatches day name) := List.any_eq_true.mpr ⟨r, hmem, hp⟩
  rw [upsertEco_eq_map day name f s hany]
  exact find?_map_updateRow day name f s r h

/-- C8: the economics upsert is idempotent and null-preserving: writing the
same event (keyed by day and event title) twice with identical fields
leaves storage unchanged; on conflict each stored column becomes
`COALESCE(incoming, stored)`, so an incoming null never replaces a stored
non-null value and a non-null incoming value overwrites; writing an event
equal to the stored row except for one previously-null field updates
exactly that field. -/
theorem economicsUpsert_C8 :
    (∀ (day : Date) (name : String) (f : EcoFields) (s : Store),
        upsertEco day name f (upsertEco day name f s) = upsertEco day name f s) ∧
    (∀ (day : Date) (ev : EcoEvent) (s : Store),
        writeEconomicsCalendar [(day, [ev])] (writeEconomicsCalendar [(day, [ev])] s) =
          writeEconomicsCalendar [(day, [ev])] s) ∧
    (∀ (day : Date) (name : String) (f : EcoFields) (s : Store) (r : StoredRow),
        findRow day name s = some r →
        findRow day name (upsertEco day name f s) = some ⟨day, name, mergeFields f r.fields⟩) ∧
    (∀ (f g : EcoFields),
        (f.time = none → (mergeFields f g).time = g.time) ∧
        (∀ v, f.time = some v → (mergeFields f g).time = some v) ∧
        (f.currency = none → (mergeFields f g).currency = g.currency) ∧
        (∀ v, f.currency = some v → (mergeFields f g).currency = some v) ∧
        (f.impact = none → (mergeFields f g).impact = g.impact) ∧
        (∀ v, f.impact = some v → (mergeFields f g).impact = some v) ∧
        (f.actual = none → (mergeFields f g).actual = g.actual) ∧
        (∀ v, f.actual = some v → (mergeFields f g).actual = some v) ∧
        (f.forecast = none → (mergeFields f g).forecast = g.forecast) ∧
        (∀ v, f.forecast = some v → (mergeFields f g).forecast = some v) ∧
        (f.previous = none → (mergeFields f g).previous = g.previous) ∧
        (∀ v, f.previous = some v → (mergeFields f g).previous = some v)) ∧
    (∀ (g : EcoFields) (v : String), g.time = none →
        mergeFields ⟨some v, g.currency, g.impact, g.actual, g.forecast, g.previous⟩ g =
          ⟨some v, g.currency, g.impact, g.actual, g.forecast, g.previous⟩) := by
  refine ⟨upsertEco_idem, ?_, findRow_upsert_conflict, ?_, ?_⟩
  · intro day ev s
    show writeEvent day ev (writeEvent day ev s) = writeEvent day ev s
    cases hev : ev.event with
    | none => simp [writeEvent, hev]
    | some name =>
      by_cases hne : name = ""
      · simp [writeEvent, hev, hne]
      · simp [writeEvent, hev, hne, upsertEco_idem]
  · intro f g
    refine ⟨?_, ?_, ?_, ?_, ?_, ?_, ?_, ?_, ?_, ?_, ?_, ?_⟩ <;>
      first
        | (intro h; simp [mergeFields, coalesce, h])
        | (intro v h; simp [mergeFields, coalesce, h])
  · intro g v _
    cases g
    simp only [mergeFields, coalesce_some, coalesce_self]

/-- Witness for C8 at a concrete day, title, store and field update. -/
theorem economicsUpsert_C8_witness :
    findRow ⟨2026, 3, 5⟩ "CPI m/m"
        (upsertEco ⟨2026, 3, 5⟩ "CPI m/m"
          ⟨some "8:30", none, some "High", some "0.3", none, none⟩
          [⟨⟨2026, 3, 5⟩, "CPI m/m", ⟨some "8:30", some "USD", none, none, some "0.2", none⟩⟩]) =
      some ⟨⟨2026, 3, 5⟩, "CPI m/m",
        ⟨some "8:30", some "USD", some "High", some "0.3", some "0.2", none⟩⟩ := by
  have h := economicsUpsert_C8.2.2.1 ⟨2026, 3, 5⟩ "CPI m/m"
      ⟨some "8:30", none, some "High", some "0.3", none, none⟩
      [⟨⟨2026, 3, 5⟩, "CPI m/m", ⟨some "8:30", some "USD", none, none, some "0.2", none⟩⟩]
      ⟨⟨2026, 3, 5⟩, "CPI m/m", ⟨some "8:30", some "USD", none, none, some "0.2", none⟩⟩
      (by decide)
  simpa [mergeFields, coalesce] using h

/-! ## Claim C2: year anchoring of the date resolver -/

/-- C2: for every raw weekday-month-day string the strptime model accepts
and every value of today, `_resolve_date` forms the candidate (month, day)
in the current year, takes delta = candidate minus today in days, and
re-anchors the candidate to the previous year when delta > 90, to the next
year when delta < -270, and keeps the current year otherwise. -/
theorem resolveDate_yearAnchor_C2 (raw : String) (today : Date) (m d : Nat)
    (hp : parseFFDate raw = some (m, d)) :
    resolveDate raw today =
      (let candidate : Date := ⟨today.year, m, d⟩
       let delta : Int := (candidate.toOrdinal : Int) - (today.toOrdinal : Int)
       if delta > 90 then .ok ⟨today.year - 1, m, d⟩
       else if delta < -270 then .ok ⟨today.year + 1, m, d⟩
       else .ok candidate) := by
  simp only [resolveDate, hp]

/-- Witness for C2: "Thu Dec 31" seen on 2026-01-10 is 355 days ahead in
the same-year candidate, hence re-anchored to 2025 (the delta > 90 branch). -/
theorem resolveDate_yearAnchor_C2_witness :
    parseFFDate "Thu Dec 31" = some (12, 31) ∧
    resolveDate "Thu Dec 31" ⟨2026, 1, 10⟩ = .ok ⟨2025, 12, 31⟩ :=
  ⟨by decide,
   (resolveDate_yearAnchor_C2 "Thu Dec 31" ⟨2026, 1, 10⟩ 12 31 (by decide)).trans (by decide)⟩

/-! ## Claim C4: all-day fallback -/

/-- C4: for every row with a resolved date whose carried time string is
missing, empty, a sentinel ("All Day", "Tentative", any case), or fails
every known clock pattern, the emitted instant is midnight UTC of the
carried date with is_all_day set; no such label fails the row. -/
theorem allDayFallback_C4 :
    (∀ (d : Date) (ct : Option String), parseTimeOpt ct = none →
        resolveInstant (some d) ct = (some (midnightUtc d), true)) ∧
    parseTimeOpt (some "") = none ∧
    parseTimeOpt (some "All Day") = none ∧
    parseTimeOpt (some "ALL DAY") = none ∧
    parseTimeOpt (some "Tentative") = none ∧
    parseTimeOpt (some "tentative") = none ∧
    parseTimeOpt (some "Day 2") = none ∧
    parseTimeOpt none = none := by
  refine ⟨?_, by decide, by decide, by decide, by decide, by decide, by decide, rfl⟩
  intro d ct h
  simp [resolveInstant, h]

/-- Witness for C4 at the sentinel "Tentative" on a concrete date. -/
theorem allDayFallback_C4_witness :
    parseTimeOpt (some "Tentative") = none ∧
    resolveInstant (some ⟨2026, 2, 26⟩) (some "Tentative") =
      (some (midnightUtc ⟨2026, 2, 26⟩), true) :=
  ⟨by decide, allDayFallback_C4.1 ⟨2026, 2, 26⟩ (some "Tentative") (by decide)⟩

/-! ## Claim C9: impact classification -/

/-- C9: `_impact_label` scans the descendant span icon classes for the
marker `icon--ff-impact-`, maps the suffix through red/ora/yel/gra, and
yields null (never an error) when no class matches or the suffix is not
one of the four known values. -/
theorem impactClassifier_C9 :
    (∀ td : Elem, (∀ span ∈ td.iterTag "span", ∀ c ∈ span.classes,
        ¬ strStarts "icon--ff-impact-" c) → impactLabel td = none) ∧
    impactMap.lookup "red" = some "High" ∧
    impactMap.lookup "ora" = some "Medium" ∧
    impactMap.lookup "yel" = some "Low" ∧
    impactMap.lookup "gra" = some "Non-Economic" ∧
    (∀ sfx : String, sfx ≠ "red" → sfx ≠ "ora" → sfx ≠ "yel" → sfx ≠ "gra" →
        impactMap.lookup sfx = none) ∧
    impactSuffix "icon--ff-impact-red" = "red" ∧
    impactLabel (Elem.mk "td" [] ""
      [Elem.mk "span" [("class", "icon--ff-impact-purple")] "" []]) = none := by
  refine ⟨?_, by decide, by decide, by decide, by decide, ?_, by decide, by decide⟩
  · intro td h
    have hnone : firstImpactClass td = none := by
      apply List.find?_eq_none.mpr
      intro c hc
      rw [impactClasses, List.mem_flatten] at hc
      obtain ⟨cls, hcls, hcmem⟩ := hc
      rw [List.mem_map] at hcls
      obtain ⟨span, hspan, rfl⟩ := hcls
      simpa using h span hspan c hcmem
    simp [impactLabel, hnone]
  · intro sfx h1 h2 h3 h4
    simp [impactMap, List.lookup,
      beq_eq_false_iff_ne.mpr h1, beq_eq_false_iff_ne.mpr h2,
      beq_eq_false_iff_ne.mpr h3, beq_eq_false_iff_ne.mpr h4]

/-- Witness for C9: a cell whose spans carry no impact marker classifies
as null. -/
theorem impactClassifier_C9_witness :
    impactLabel (Elem.mk "td" [] ""
      [Elem.mk "span" [("class", "sentiment icon")] "" []]) = none :=
  impactClassifier_C9.1 _ (by decide)

/-! ## Claim C10: first impact match wins, even with an unknown suffix -/

/-- Impact cell whose first marked span has an unrecognized suffix and
whose second span carries the recognized suffix "red". -/
def unknownThenRedCell : Elem :=
  .mk "td" [] ""
    [.mk "span" [("class", "icon icon--ff-impact-unknown")] "" [],
     .mk "span" [("class", "icon--ff-impact-red")] "" []]

/-- C10: `_impact_label` commits to the first class whose prefix matches
the icon marker: when that class has an unrecognized suffix the result is
null immediately, even though a later span carries "red". -/
theorem impactFirstMatch_C10 :
    (∀ (td : Elem) (c : String), firstImpactClass td = some c →
        impactLabel td = impactMap.lookup (impactSuffix c)) ∧
    firstImpactClass unknownThenRedCell = some "icon--ff-impact-unknown" ∧
    impactLabel unknownThenRedCell = none := by
  refine ⟨?_, by decide, by decide⟩
  intro td c h
  simp [impactLabel, h]

/-- Witness for C10 at the two-span cell. -/
theorem impactFirstMatch_C10_witness :
    impactLabel unknownThenRedCell = impactMap.lookup (impactSuffix "icon--ff-impact-unknown") :=
  impactFirstMatch_C10.1 unknownThenRedCell "icon--ff-impact-unknown" (by decide)

/-! ## Claim C6: table extraction -/

/-- C6: a document with no element carrying the calendar table class makes
`extract_calendar_table` fail with the extraction error, and a document
with at least one such element yields the serialization of the first, with
no error. -/
theorem extractCalendarTable_C6 (doc : Elem) :
    (¬ (∃ e ∈ doc.descendants, "calendar__table" ∈ e.classes) →
        extractCalendarTable doc = .error "No calendar table found in HTML") ∧
    (∀ t rest, doc.findClass "calendar__table" = t :: rest →
        extractCalendarTable doc = .ok (render t)) := by
  constructor
  · intro h
    have hfc : doc.findClass "calendar__table" = [] := by
      rw [Elem.findClass, List.filter_eq_nil_iff]
      intro e he
      simpa using fun hmem => h ⟨e, he, hmem⟩
    simp [extractCalendarTable, hfc]
  · intro t rest h
    simp [extractCalendarTable, h]

/-- A page containing one calendar table, for the C6 witness. -/
def sampleCalendarTable : Elem :=
  .mk "table" [("class", "calendar__table")] "" [.mk "tr" [("data-event-id", "1")] "" []]

def samplePage : Elem :=
  .mk "html" [] "" [.mk "div" [] "" [sampleCalendarTable]]

/-- Witness for C6: both the success side and the failure side at concrete
documents. -/
theorem extractCalendarTable_C6_witness :
    extractCalendarTable samplePage = .ok (render sampleCalendarTable) ∧
    extractCalendarTable (Elem.mk "html" [] "" []) = .error "No calendar table found in HTML" :=
  ⟨(extractCalendarTable_C6 samplePage).2 sampleCalendarTable [] rfl,
   (extractCalendarTable_C6 (Elem.mk "html" [] "" [])).1 (by decide)⟩

/-! ## Concrete table builders shared by the scan claims -/

def dateCell (s : String) : Elem := .mk "td" [("class", "calendar__date")] s []

def timeCell (s : String) : Elem := .mk "td" [("class", "calendar__time")] s []

def eventRow (id : String) (cells : List Elem) : Elem :=
  .mk "tr" [("data-event-id", id)] "" cells

def calTable (rows : List Elem) : Elem :=
  .mk "table" [("class", "calendar__table")] "" rows

/-! ## Claim C5: a malformed date cell and the scope of its failure -/

/-- A row whose date cell carries text that strptime rejects. -/
def BadDateRow (row : Elem) : Prop :=
  ∃ raw, textOpt (row.findClass "calendar__date").head? = some raw ∧ parseFFDate raw = none

theorem dateStep_error (row : Elem) (today : Date) (cd : Option Date) (ct : Option String)
    (raw : String)
    (hraw : textOpt (row.findClass "calendar__date").head? = some raw)
    (hpf : parseFFDate raw = none) :
    dateStep row today cd ct = .error "time data does not match format" := by
  unfold dateStep
  cases htd : (row.findClass "calendar__date").head? with
  | none => rw [htd] at hraw; simp [textOpt] at hraw
  | some td =>
    rw [htd] at hraw
    simp [hraw, resolveDate, hpf]

theorem scanRows_error_of_bad (today : Date) (rows : List Elem) :
    ∀ (cd : Option Date) (ct : Option String),
      (∃ row ∈ rows, BadDateRow row) →
      ∃ msg, scanRows today rows cd ct = .error msg := by
  induction rows with
  | nil =>
    intro cd ct h
    simp at h
  | cons row rest ih =>
    intro cd ct h
    rcases h with ⟨r, hr, hbad⟩
    rcases List.mem_cons.mp hr with heq | hmem
    · subst heq
      obtain ⟨raw, hraw, hpf⟩ := hbad
      refine ⟨"time data does not match format", ?_⟩
      have hds := dateStep_error r today cd ct raw hraw hpf
      simp [scanRows, hds]
    · cases hds : dateStep row today cd ct with
      | error e => exact ⟨e, by simp [scanRows, hds]⟩
      | ok p =>
        obtain ⟨cd2, ct2⟩ := p
        obtain ⟨msg, hm⟩ := ih cd2 (timeStep row ct2) ⟨r, hmem, hbad⟩
        exact ⟨msg, by simp [scanRows, hds, hm]⟩

/-- C5 (amended): a date cell whose text does not match the expected
weekday/month/day pattern aborts the whole table parse — the strptime
error propagates out of `parse_economic_calendar` uncaught (the caller
aborts the whole sync cycle); the failure is not row-scoped. -/
theorem malformedDateAborts_C5 (doc : Elem) (today : Date)
    (h : ∃ row ∈ eventRows doc, BadDateRow row) :
    ∃ msg, parseEconomicCalendar doc today = .error msg :=
  scanRows_error_of_bad today (eventRows doc) none none h

/-- A table whose first row has a malformed date and whose second row is
well-formed. -/
def badDateTable : Elem :=
  calTable [eventRow "1" [dateCell "Not A Date"],
            eventRow "2" [dateCell "Thu Feb 26", timeCell "8:30am"]]

/-- Counterexample to C5 as stated: on a table with a malformed date row
followed by a well-formed row, the parse returns an error — it does not
drop the bad row and continue (the well-formed row alone parses fine, so
the abort is due solely to the malformed date). -/
theorem malformedDateAborts_C5_counterexample :
    parseEconomicCalendar badDateTable ⟨2026, 2, 20⟩ =
      .error "time data does not match format" ∧
    parseEconomicCalendar (calTable [eventRow "2" [dateCell "Thu Feb 26", timeCell "8:30am"]])
        ⟨2026, 2, 20⟩ =
      .ok [⟨some ⟨⟨2026, 2, 26⟩, 7, 30⟩, false, none, none, none, none, none, none⟩] := by
  exact ⟨by decide, by decide⟩

/-- Witness for the amended C5 at the concrete bad table. -/
theorem malformedDateAborts_C5_witness :
    ∃ msg, parseEconomicCalendar badDateTable ⟨2026, 2, 20⟩ = .error msg :=
  malformedDateAborts_C5 badDateTable ⟨2026, 2, 20⟩
    ⟨eventRow "1" [dateCell "Not A Date"], List.Mem.head _,
     "Not A Date", by decide, by decide⟩

/-! ## Claim C7: presence of the instant field -/

/-- Whether a row carries a date cell with non-empty text. -/
def hasDateText (row : Elem) : Bool :=
  (textOpt (row.findClass "calendar__date").head?).isSome

def defaultEvent : Event := ⟨none, false, none, none, none, none, none, none⟩

def eventAt (evs : List Event) (i : Nat) : Event := evs.getD i defaultEvent

theorem buildEvent_date_isSome (row : Elem) (cd : Option Date) (ct : Option String) :
    (buildEvent row cd ct).date.isSome = cd.isSome := by
  cases cd with
  | none => simp [buildEvent, resolveInstant]
  | some d => cases hp : parseTimeOpt ct <;> simp [buildEvent, resolveInstant, hp]

theorem dateStep_ok_of_no_text (row : Elem) (today : Date) (cd : Option Date)
    (ct : Option String) (h : hasDateText row = false) :
    dateStep row today cd ct = .ok (cd, ct) := by
  unfold hasDateText at h
  unfold dateStep
  cases htd : (row.findClass "calendar__date").head? with
  | none => simp
  | some td =>
    rw [htd] at h
    cases hto : textOpt (some td) with
    | none => simp [hto]
    | some raw => rw [hto] at h; simp at h

theorem dateStep_some_of_text (row : Elem) (today : Date) (cd : Option Date)
    (ct : Option String) (cd2 : Option Date) (ct2 : Option String)
    (h : hasDateText row = true) (hok : dateStep row today cd ct = .ok (cd2, ct2)) :
    ∃ d, cd2 = some d ∧ ct2 = none := by
  unfold hasDateText at h
  unfold dateStep at hok
  cases htd : (row.findClass "calendar__date").head? with
  | none => rw [htd] at h; simp [textOpt] at h
  | some td =>
    rw [htd] at h
    simp only [htd] at hok
    cases hto : textOpt (some td) with
    | none => rw [hto] at h; simp at h
    | some raw =>
      simp only [hto] at hok
      cases hrd : resolveDate raw today with
      | error e =>
        simp only [hrd] at hok
        exact Except.noConfusion hok
      | ok d =>
        simp only [hrd, Except.ok.injEq, Prod.mk.injEq] at hok
        exact ⟨d, hok.1.symm, hok.2.symm⟩

theorem scanRows_date_presence (today : Date) (rows : List Elem) :
    ∀ (cd : Option Date) (ct : Option String) (evs : List Event),
      scanRows today rows cd ct = .ok evs →
      evs.length = rows.length ∧
      ∀ i, i < evs.length →
        (eventAt evs i).date.isSome = (cd.isSome || (rows.take (i + 1)).any hasDateText) := by
  induction rows with
  | nil =>
    intro cd ct evs h
    simp [scanRows] at h
    subst h
    simp
  | cons row rest ih =>
    intro cd ct evs h
    rw [scanRows] at h
    cases hds : dateStep row today cd ct with
    | error e =>
      simp only [hds] at h
      exact Except.noConfusion h
    | ok p =>
      obtain ⟨cd2, ct2⟩ := p
      simp only [hds] at h
      cases hrec : scanRows today rest cd2 (timeStep row ct2) with
      | error e =>
        simp only [hrec] at h
        exact Except.noConfusion h
      | ok tailEvs =>
        simp only [hrec, Except.ok.injEq] at h
        subst h
        obtain ⟨hlen, hidx⟩ := ih cd2 (timeStep row ct2) tailEvs hrec
        refine ⟨by simp [hlen], ?_⟩
        intro i hi
        cases i with
        | zero =>
          show (buildEvent row cd2 (timeStep row ct2)).date.isSome = _
          rw [buildEvent_date_isSome]
          by_cases hhd : hasDateText row
          · obtain ⟨d, hd2, -⟩ := dateStep_some_of_text row today cd ct cd2 ct2 hhd hds
            subst hd2
            simp [hhd]
          · have hn := dateStep_ok_of_no_text row today cd ct (by simpa using hhd)
            rw [hn] at hds
            simp only [Except.ok.injEq, Prod.mk.injEq] at hds
            rw [← hds.1]
            simp [hhd]
        | succ j =>
          have hj := hidx j (by simpa using hi)
          show (eventAt tailEvs j).date.isSome = _
          rw [List.take_succ_cons, List.any_cons]
          by_cases hhd : hasDateText row
          · obtain ⟨d, hd2, -⟩ := dateStep_some_of_text row today cd ct cd2 ct2 hhd hds
            rw [hj, hd2, hhd]
            simp
          · have hn := dateStep_ok_of_no_text row today cd ct (by simpa using hhd)
            rw [hn] at hds
            simp only [Except.ok.injEq, Prod.mk.injEq] at hds
            rw [hj, ← hds.1]
            simp [hhd]

/-- C7 (amended): an emitted event's instant is non-null exactly when some
row at or before it carried a non-empty date cell; rows scanned before any
date cell has been seen are emitted with a null instant, so the spec's
"always present" fails for those leading rows. -/
theorem instantPresence_C7 (doc : Elem) (today : Date) (evs : List Event)
    (h : parseEconomicCalendar doc today = .ok evs) :
    evs.length = (eventRows doc).length ∧
    ∀ i, i < evs.length →
      (eventAt evs i).date.isSome = ((eventRows doc).take (i + 1)).any hasDateText := by
  have hmain := scanRows_date_presence today (eventRows doc) none none evs h
  simpa using hmain

/-- A table whose single row precedes any date cell. -/
def noDateFirstTable : Elem := calTable [eventRow "1" [timeCell "8:30am"]]

/-- Counterexample to C7 as stated: a row encountered before any date cell
is emitted with a null instant (`date = none`), so the instant is not
always present. -/
theorem instantPresence_C7_counterexample :
    parseEconomicCalendar noDateFirstTable ⟨2026, 1, 1⟩ =
      .ok [⟨none, false, none, none, none, none, none, none⟩] := by
  decide

/-- Two-row table for the C7 witness: a dateless leading row, then a dated
row. -/
def lateDateTable : Elem :=
  calTable [eventRow "1" [timeCell "8:30am"], eventRow "2" [dateCell "Thu Feb 26"]]

/-- Witness for the amended C7: on the concrete two-row table the first
event has a null instant and the second a non-null one. -/
theorem instantPresence_C7_witness :
    (eventAt [⟨none, false, none, none, none, none, none, none⟩,
              ⟨some ⟨⟨2026, 2, 26⟩, 0, 0⟩, true, none, none, none, none, none, none⟩] 0).date.isSome =
      ((eventRows lateDateTable).take 1).any hasDateText ∧
    (eventAt [⟨none, false, none, none, none, none, none, none⟩,
              ⟨some ⟨⟨2026, 2, 26⟩, 0, 0⟩, true, none, none, none, none, none, none⟩] 1).date.isSome =
      ((eventRows lateDateTable).take 2).any hasDateText := by
  have h := instantPresence_C7 lateDateTable ⟨2026, 2, 20⟩
      [⟨none, false, none, none, none, none, none, none⟩,
       ⟨some ⟨⟨2026, 2, 26⟩, 0, 0⟩, true, none, none, none, none, none, none⟩] (by decide)
  exact ⟨h.2 0 (by decide), h.2 1 (by decide)⟩

/-! ## Claim C3: calendar arithmetic for the CET-to-UTC conversion -/

theorem daysBeforeMonth_succ (y k : Nat) :
    daysBeforeMonth y (k + 2) = daysBeforeMonth y (k + 1) + daysInMonth y (k + 1) := by
  show (List.range (k + 1)).foldl (fun acc i => acc + daysInMonth y (i + 1)) 0 = _
  rw [List.range_succ, List.foldl_append]
  rfl

set_option maxHeartbeats 2000000 in
theorem daysBeforeYear_succ (n : Nat) (hn : 1 ≤ n) :
    daysBeforeYear (n + 1) = daysBeforeYear n + 365 + (if isLeap n then 1 else 0) := by
  have hl : (isLeap n = true) ↔ (n % 4 = 0 ∧ (n % 100 ≠ 0 ∨ n % 400 = 0)) := by
    simp [isLeap]
  unfold daysBeforeYear
  by_cases h : isLeap n
  · rw [if_pos h]
    rw [hl] at h
    simp only [Nat.add_sub_cancel]
    omega
  · rw [if_neg h]
    rw [hl] at h
    simp only [Nat.add_sub_cancel]
    omega

theorem daysBeforeMonth_twelve (y : Nat) :
    daysBeforeMonth y 12 + 31 = 365 + (if isLeap y then 1 else 0) := by
  have hr : List.range 11 = [0, 1, 2, 3, 4, 5, 6, 7, 8, 9, 10] := by decide
  unfold daysBeforeMonth
  rw [show (12 - 1 : Nat) = 11 from rfl, hr]
  simp only [List.foldl_cons, List.foldl_nil]
  by_cases h : isLeap y
  · rw [if_pos h]
    simp [daysInMonth, h]
  · rw [if_neg h]
    simp [daysInMonth, h]

theorem Date.toOrdinal_pred (d : Date) (hv : d.Valid) (hy : 2 ≤ d.year) :
    (Date.pred d).toOrdinal + 1 = d.toOrdinal := by
  obtain ⟨hy1, hm1, hm12, hd1, hdm⟩ := hv
  unfold Date.pred
  by_cases hday : 1 < d.day
  · rw [if_pos hday]
    show daysBeforeYear d.year + daysBeforeMonth d.year d.month + (d.day - 1) + 1 = _
    unfold Date.toOrdinal
    omega
  · rw [if_neg hday]
    by_cases hmon : 1 < d.month
    · rw [if_pos hmon]
      show daysBeforeYear d.year + daysBeforeMonth d.year (d.month - 1) +
          daysInMonth d.year (d.month - 1) + 1 = _
      unfold Date.toOrdinal
      obtain ⟨k, hk⟩ : ∃ k, d.month = k + 2 := ⟨d.month - 2, by omega⟩
      rw [hk]
      have h21 : k + 2 - 1 = k + 1 := by omega
      rw [h21]
      have hstep := daysBeforeMonth_succ d.year k
      omega
    · rw [if_neg hmon]
      have hmeq : d.month = 1 := by omega
      have hdeq : d.day = 1 := by omega
      show daysBeforeYear (d.year - 1) + daysBeforeMonth (d.year - 1) 12 + 31 + 1 = _
      unfold Date.toOrdinal
      rw [hmeq, hdeq]
      have h12 := daysBeforeMonth_twelve (d.year - 1)
      have hsucc := daysBeforeYear_succ (d.year - 1) (by omega)
      have hyeq : d.year - 1 + 1 = d.year := by omega
      rw [hyeq] at hsucc
      have hbm1 : daysBeforeMonth d.year 1 = 0 := rfl
      omega

theorem cetToUtc_instant (d : Date) (t : Time) (hv : d.Valid) (hy : 2 ≤ d.year)
    (hh : t.hour < 24) (hm : t.minute < 60) :
    (cetToUtc d t).toMinutes + berlinOffsetMinutes d t =
      d.toOrdinal * 1440 + t.hour * 60 + t.minute := by
  have hpred := Date.toOrdinal_pred d hv hy
  have hoff : berlinOffsetMinutes d t = 60 ∨ berlinOffsetMinutes d t = 120 := by
    unfold berlinOffsetMinutes
    by_cases h : berlinIsDst d t
    · rw [if_pos h]; right; rfl
    · rw [if_neg h]; left; rfl
  unfold cetToUtc
  by_cases hc : berlinOffsetMinutes d t ≤ t.hour * 60 + t.minute
  · rw [if_pos hc]
    show d.toOrdinal * 1440 +
        ((t.hour * 60 + t.minute - berlinOffsetMinutes d t) / 60) * 60 +
        (t.hour * 60 + t.minute - berlinOffsetMinutes d t) % 60 +
        berlinOffsetMinutes d t = _
    omega
  · rw [if_neg hc]
    show (Date.pred d).toOrdinal * 1440 +
        ((t.hour * 60 + t.minute + 1440 - berlinOffsetMinutes d t) / 60) * 60 +
        (t.hour * 60 + t.minute + 1440 - berlinOffsetMinutes d t) % 60 +
        berlinOffsetMinutes d t = _
    omega

/-- C3: for every row with a resolved date and a parsable 12-hour clock
time, the emitted instant is the wall-clock time interpreted at the
Europe/Berlin UTC offset in effect at that local date and time (60 or 120
minutes, DST-dependent), converted to UTC — as instants, UTC + offset =
local.  Concretely, "11:30pm" on 2026-01-15 (offset +1) is 22:30 UTC the
same day, "11:30pm" on 2026-07-15 (offset +2, DST) is 21:30 UTC, and
"12:30am" on 2026-01-15 lands on the previous UTC day. -/
theorem timezoneConversion_C3 :
    (∀ (d : Date) (ts : String) (t : Time), parseTimeOpt (some ts) = some t →
        resolveInstant (some d) (some ts) = (some (cetToUtc d t), false)) ∧
    (∀ (d : Date) (t : Time), d.Valid → 2 ≤ d.year → t.hour < 24 → t.minute < 60 →
        (cetToUtc d t).toMinutes + berlinOffsetMinutes d t =
          d.toOrdinal * 1440 + t.hour * 60 + t.minute) ∧
    resolveInstant (some ⟨2026, 1, 15⟩) (some "11:30pm") =
      (some ⟨⟨2026, 1, 15⟩, 22, 30⟩, false) ∧
    resolveInstant (some ⟨2026, 7, 15⟩) (some "11:30pm") =
      (some ⟨⟨2026, 7, 15⟩, 21, 30⟩, false) ∧
    berlinOffsetMinutes ⟨2026, 1, 15⟩ ⟨23, 30⟩ = 60 ∧
    berlinOffsetMinutes ⟨2026, 7, 15⟩ ⟨23, 30⟩ = 120 ∧
    resolveInstant (some ⟨2026, 1, 15⟩) (some "12:30am") =
      (some ⟨⟨2026, 1, 14⟩, 23, 30⟩, false) := by
  refine ⟨?_, cetToUtc_instant, by decide, by decide, by decide, by decide, by decide⟩
  intro d ts t h
  simp [resolveInstant, h]

/-- Witness for C3 on a concrete winter date and parsed time. -/
theorem timezoneConversion_C3_witness :
    resolveInstant (some ⟨2026, 3, 14⟩) (some "9:45pm") =
      (some (cetToUtc ⟨2026, 3, 14⟩ ⟨21, 45⟩), false) ∧
    (cetToUtc ⟨2026, 3, 14⟩ ⟨21, 45⟩).toMinutes + berlinOffsetMinutes ⟨2026, 3, 14⟩ ⟨21, 45⟩ =
      (Date.toOrdinal ⟨2026, 3, 14⟩) * 1440 + 21 * 60 + 45 :=
  ⟨timezoneConversion_C3.1 ⟨2026, 3, 14⟩ "9:45pm" ⟨21, 45⟩ (by decide),
   timezoneConversion_C3.2.1 ⟨2026, 3, 14⟩ ⟨21, 45⟩ (by decide) (by decide) (by decide) (by decide)⟩

/-! ## Claim C1: date and time carry-over across rows -/

theorem textContent_leaf (tag : String) (attrs : List (String × String)) (s : String) :
    (Elem.mk tag attrs s []).textContent = s := by
  show s ++ textContentList [] = s
  show s ++ "" = s
  exact String.append_empty s

theorem textOpt_cell (tag cls s : String) (hs : pyStrip s = s) (hn : s ≠ "") :
    textOpt (some (Elem.mk tag [("class", cls)] s [])) = some s := by
  unfold textOpt
  simp only [textContent_leaf, hs]
  simp [hn]

theorem textOpt_dateCell (s : String) (hs : pyStrip s = s) (hn : s ≠ "") :
    textOpt (some (dateCell s)) = some s :=
  textOpt_cell "td" "calendar__date" s hs hn

theorem textOpt_timeCell (s : String) (hs : pyStrip s = s) (hn : s ≠ "") :
    textOpt (some (timeCell s)) = some s :=
  textOpt_cell "td" "calendar__time" s hs hn

theorem scanRows_cons_ok (today : Date) (row : Elem) (rest : List Elem)
    (cd : Option Date) (ct : Option String) (cd2 : Option Date) (ct2 : Option String)
    (evs : List Event)
    (hds : dateStep row today cd ct = .ok (cd2, ct2))
    (hrec : scanRows today rest cd2 (timeStep row ct2) = .ok evs) :
    scanRows today (row :: rest) cd ct =
      .ok (buildEvent row cd2 (timeStep row ct2) :: evs) := by
  rw [scanRows]
  simp only [hds, hrec]

theorem buildEvent_bare (row : Elem) (cd : Option Date) (ct : Option String)
    (h1 : (row.findClass "calendar__currency").head? = none)
    (h2 : (row.findClass "calendar__impact").head? = none)
    (h3 : (row.findClass "calendar__event-title").head? = none)
    (h4 : (row.findClass "calendar__actual").head? = none)
    (h5 : (row.findClass "calendar__forecast").head? = none)
    (h6 : (row.findClass "calendar__previous").head? = none) :
    buildEvent row cd ct =
      ⟨(resolveInstant cd ct).1, (resolveInstant cd ct).2,
       none, none, none, none, none, none⟩ := by
  unfold buildEvent
  rw [h1, h2, h3, h4, h5, h6]
  rfl

/-- C1: within one table scan a row with no date cell inherits the carried
date and a row with no time cell inherits the carried raw time, while a
resolved date cell resets the carried time: the table
[date=D1, time=T1], [no cells], [time=T2] yields instants built from
(D1,T1), (D1,T1), (D1,T2), and the table [date=D1, time=T1], [date=D2]
yields a second event that is all-day at midnight UTC of D2 (the time does
not carry across the day boundary). -/
theorem carryOver_C1 (today D1 D2 : Date) (d1s d2s t1s t2s : String)
    (hd1 : resolveDate d1s today = .ok D1) (hd2 : resolveDate d2s today = .ok D2)
    (hd1t : pyStrip d1s = d1s) (hd1n : d1s ≠ "")
    (hd2t : pyStrip d2s = d2s) (hd2n : d2s ≠ "")
    (ht1t : pyStrip t1s = t1s) (ht1n : t1s ≠ "")
    (ht2t : pyStrip t2s = t2s) (ht2n : t2s ≠ "") :
    parseEconomicCalendar
        (calTable [eventRow "1" [dateCell d1s, timeCell t1s],
                   eventRow "2" [],
                   eventRow "3" [timeCell t2s]]) today =
      .ok [⟨(resolveInstant (some D1) (some t1s)).1, (resolveInstant (some D1) (some t1s)).2,
            none, none, none, none, none, none⟩,
           ⟨(resolveInstant (some D1) (some t1s)).1, (resolveInstant (some D1) (some t1s)).2,
            none, none, none, none, none, none⟩,
           ⟨(resolveInstant (some D1) (some t2s)).1, (resolveInstant (some D1) (some t2s)).2,
            none, none, none, none, none, none⟩] ∧
    parseEconomicCalendar
        (calTable [eventRow "1" [dateCell d1s, timeCell t1s],
                   eventRow "2" [dateCell d2s]]) today =
      .ok [⟨(resolveInstant (some D1) (some t1s)).1, (resolveInstant (some D1) (some t1s)).2,
            none, none, none, none, none, none⟩,
           ⟨some (midnightUtc D2), true, none, none, none, none, none, none⟩] := by
  have e1 : dateStep (eventRow "1" [dateCell d1s, timeCell t1s]) today none none =
      .ok (some D1, none) := by
    unfold dateStep
    rw [show ((eventRow "1" [dateCell d1s, timeCell t1s]).findClass "calendar__date").head? =
        some (dateCell d1s) from rfl]
    simp only [textOpt_dateCell d1s hd1t hd1n, hd1]
  have t1 : timeStep (eventRow "1" [dateCell d1s, timeCell t1s]) none = some t1s := by
    unfold timeStep
    rw [show ((eventRow "1" [dateCell d1s, timeCell t1s]).findClass "calendar__time").head? =
        some (timeCell t1s) from rfl]
    simp only [textOpt_timeCell t1s ht1t ht1n]
  constructor
  · have e2 : dateStep (eventRow "2" []) today (some D1) (some t1s) =
        .ok (some D1, some t1s) :=
      dateStep_ok_of_no_text _ today _ _ rfl
    have t2 : timeStep (eventRow "2" []) (some t1s) = some t1s := rfl
    have e3 : dateStep (eventRow "3" [timeCell t2s]) today (some D1) (some t1s) =
        .ok (some D1, some t1s) :=
      dateStep_ok_of_no_text _ today _ _ rfl
    have t3 : timeStep (eventRow "3" [timeCell t2s]) (some t1s) = some t2s := by
      unfold timeStep
      rw [show ((eventRow "3" [timeCell t2s]).findClass "calendar__time").head? =
          some (timeCell t2s) from rfl]
      simp only [textOpt_timeCell t2s ht2t ht2n]
    have hscan3 : scanRows today [eventRow "3" [timeCell t2s]] (some D1) (some t1s) =
        .ok [buildEvent (eventRow "3" [timeCell t2s]) (some D1) (some t2s)] := by
      have hb := scanRows_cons_ok today (eventRow "3" [timeCell t2s]) [] (some D1) (some t1s)
        (some D1) (some t1s) [] e3 (by rw [t3]; rfl)
      rw [t3] at hb
      exact hb
    have hscan2 : scanRows today [eventRow "2" [], eventRow "3" [timeCell t2s]]
        (some D1) (some t1s) =
        .ok [buildEvent (eventRow "2" []) (some D1) (some t1s),
             buildEvent (eventRow "3" [timeCell t2s]) (some D1) (some t2s)] := by
      have hb := scanRows_cons_ok today (eventRow "2" []) [eventRow "3" [timeCell t2s]]
        (some D1) (some t1s) (some D1) (some t1s)
        [buildEvent (eventRow "3" [timeCell t2s]) (some D1) (some t2s)] e2
        (by rw [t2]; exact hscan3)
      rw [t2] at hb
      exact hb
    have hscan1 := scanRows_cons_ok today (eventRow "1" [dateCell d1s, timeCell t1s])
      [eventRow "2" [], eventRow "3" [timeCell t2s]] none none (some D1) none
      [buildEvent (eventRow "2" []) (some D1) (some t1s),
       buildEvent (eventRow "3" [timeCell t2s]) (some D1) (some t2s)] e1
      (by rw [t1]; exact hscan2)
    rw [t1] at hscan1
    show scanRows today (eventRows _) none none = _
    rw [show eventRows (calTable [eventRow "1" [dateCell d1s, timeCell t1s],
          eventRow "2" [], eventRow "3" [timeCell t2s]]) =
        [eventRow "1" [dateCell d1s, timeCell t1s],
         eventRow "2" [], eventRow "3" [timeCell t2s]] from rfl]
    rw [hscan1]
    rw [buildEvent_bare (eventRow "1" [dateCell d1s, timeCell t1s]) (some D1) (some t1s)
          rfl rfl rfl rfl rfl rfl,
        buildEvent_bare (eventRow "2" []) (some D1) (some t1s) rfl rfl rfl rfl rfl rfl,
        buildEvent_bare (eventRow "3" [timeCell t2s]) (some D1) (some t2s)
          rfl rfl rfl rfl rfl rfl]
  · have e2b : dateStep (eventRow "2" [dateCell d2s]) today (some D1) (some t1s) =
        .ok (some D2, none) := by
      unfold dateStep
      rw [show ((eventRow "2" [dateCell d2s]).findClass "calendar__date").head? =
          some (dateCell d2s) from rfl]
      simp only [textOpt_dateCell d2s hd2t hd2n, hd2]
    have t2b : timeStep (eventRow "2" [dateCell d2s]) none = none := rfl
    have hscan2 : scanRows today [eventRow "2" [dateCell d2s]] (some D1) (some t1s) =
        .ok [buildEvent (eventRow "2" [dateCell d2s]) (some D2) none] := by
      have hb := scanRows_cons_ok today (eventRow "2" [dateCell d2s]) [] (some D1) (some t1s)
        (some D2) none [] e2b (by rw [t2b]; rfl)
      rw [t2b] at hb
      exact hb
    have hscan1 := scanRows_cons_ok today (eventRow "1" [dateCell d1s, timeCell t1s])
      [eventRow "2" [dateCell d2s]] none none (some D1) none
      [buildEvent (eventRow "2" [dateCell d2s]) (some D2) none] e1
      (by rw [t1]; exact hscan2)
    rw [t1] at hscan1
    show scanRows today (eventRows _) none none = _
    rw [show eventRows (calTable [eventRow "1" [dateCell d1s, timeCell t1s],
          eventRow "2" [dateCell d2s]]) =
        [eventRow "1" [dateCell d1s, timeCell t1s], eventRow "2" [dateCell d2s]] from rfl]
    rw [hscan1]
    rw [buildEvent_bare (eventRow "1" [dateCell d1s, timeCell t1s]) (some D1) (some t1s)
          rfl rfl rfl rfl rfl rfl,
        buildEvent_bare (eventRow "2" [dateCell d2s]) (some D2) none rfl rfl rfl rfl rfl rfl]
    rfl

/-- Witness for C1 at concrete dates and times. -/
theorem carryOver_C1_witness :
    parseEconomicCalendar
        (calTable [eventRow "1" [dateCell "Thu Feb 26", timeCell "8:30am"],
                   eventRow "2" [],
                   eventRow "3" [timeCell "10:00am"]]) ⟨2026, 2, 20⟩ =
      .ok [⟨(resolveInstant (some ⟨2026, 2, 26⟩) (some "8:30am")).1,
            (resolveInstant (some ⟨2026, 2, 26⟩) (some "8:30am")).2,
            none, none, none, none, none, none⟩,
           ⟨(resolveInstant (some ⟨2026, 2, 26⟩) (some "8:30am")).1,
            (resolveInstant (some ⟨2026, 2, 26⟩) (some "8:30am")).2,
            none, none, none, none, none, none⟩,
           ⟨(resolveInstant (some ⟨2026, 2, 26⟩) (some "10:00am")).1,
            (resolveInstant (some ⟨2026, 2, 26⟩) (some "10:00am")).2,
            none, none, none, none, none, none⟩] ∧
    parseEconomicCalendar
        (calTable [eventRow "1" [dateCell "Thu Feb 26", timeCell "8:30am"],
                   eventRow "2" [dateCell "Fri Feb 27"]]) ⟨2026, 2, 20⟩ =
      .ok [⟨(resolveInstant (some ⟨2026, 2, 26⟩) (some "8:30am")).1,
            (resolveInstant (some ⟨2026, 2, 26⟩) (some "8:30am")).2,
            none, none, none, none, none, none⟩,
           ⟨some (midnightUtc ⟨2026, 2, 27⟩), true, none, none, none, none, none, none⟩] :=
  carryOver_C1 ⟨2026, 2, 20⟩ ⟨2026, 2, 26⟩ ⟨2026, 2, 27⟩
    "Thu Feb 26" "Fri Feb 27" "8:30am" "10:00am"
    (by decide) (by decide) (by decide) (by decide) (by decide) (by decide)
    (by decide) (by decide) (by decide) (by decide)

end Kitsune
